import Mathlib

/-!
Verification of the coupon-scraper pipeline
(`couponscraper_wsap`: `config.py`, `utils.py`, `main.py`).

The Python code is shallowly embedded: strings are `String` (lists of
characters), Python `dict`s are association lists, fallible code returns
`Option` or `Except`, and the Selenium page renderer is an explicit oracle
parameter. Each definition is translated directly from the source file it
names; definitions whose doc comment says so model the wording of the
specification instead, for comparison with the code.
-/

namespace CouponScraper

/-! Section: Python string primitives -/

/-- ASCII subset of Python `str.isspace` characters, as used by `str.split()`
and `str.strip()`. -/
def isPySpace (c : Char) : Bool :=
  c == ' ' || c == '\t' || c == '\n' || c == '\r' || c == '\x0b' || c == '\x0c'

/-- Python `str.lower()` (ASCII letters; all inputs in this development are
ASCII). -/
def pyLower (s : String) : String :=
  ⟨s.data.map Char.toLower⟩

/-- Python `str.strip()` with no argument: drop whitespace at both ends. -/
def pyStrip (s : String) : String :=
  ⟨((s.data.dropWhile isPySpace).reverse.dropWhile isPySpace).reverse⟩

/-- Python substring containment `nd in hay` on character lists. -/
def containsSub (hay nd : List Char) : Bool :=
  if nd.isPrefixOf hay then true
  else
    match hay with
    | [] => false
    | _ :: t => containsSub t nd

/-- Index of the leftmost occurrence of `nd` in `hay`, if any (the scan
underlying Python `str.split`, `str.replace` and `in`). -/
def findSub (hay nd : List Char) : Option Nat :=
  if nd.isPrefixOf hay then some 0
  else
    match hay with
    | [] => none
    | _ :: t => (findSub t nd).map (fun i => i + 1)

theorem containsSub_eq_isSome_findSub (hay nd : List Char) :
    containsSub hay nd = (findSub hay nd).isSome := by
  induction hay with
  | nil =>
    by_cases h : nd.isPrefixOf ([] : List Char) <;> simp [containsSub, findSub, h]
  | cons c t ih =>
    by_cases h : nd.isPrefixOf (c :: t)
    · simp [containsSub, findSub, h]
    · simp only [containsSub, findSub, h, if_false, ih]
      cases findSub t nd <;> simp

theorem findSub_bound (nd : List Char) :
    ∀ hay i, findSub hay nd = some i → i + nd.length ≤ hay.length := by
  intro hay
  induction hay with
  | nil =>
    intro i h
    by_cases hp : nd.isPrefixOf ([] : List Char)
    · simp [findSub, hp] at h
      subst h
      have hpre := List.isPrefixOf_iff_prefix.mp hp
      have := List.IsPrefix.length_le hpre
      simpa using this
    · simp [findSub, hp] at h
  | cons c t ih =>
    intro i h
    by_cases hp : nd.isPrefixOf (c :: t)
    · simp [findSub, hp] at h
      subst h
      have hpre := List.isPrefixOf_iff_prefix.mp hp
      have := List.IsPrefix.length_le hpre
      simpa using this
    · simp only [findSub, hp, if_false] at h
      cases hfind : findSub t nd with
      | none => rw [hfind] at h; simp at h
      | some j =>
        rw [hfind] at h
        simp at h
        subst h
        have := ih j hfind
        simp [List.length]
        omega

/-- Python `str.split(sep)` for a non-empty separator: repeatedly cut at the
leftmost occurrence. Fueled so that the kernel can evaluate it; the fuel
`hay.length + 1` always suffices. -/
def pySplitSepAux (nd : List Char) : Nat → List Char → List (List Char)
  | 0, hay => [hay]
  | fuel + 1, hay =>
    match findSub hay nd with
    | none => [hay]
    | some i => hay.take i :: pySplitSepAux nd fuel (hay.drop (i + nd.length))

def pySplitSep (nd hay : List Char) : List (List Char) :=
  pySplitSepAux nd (hay.length + 1) hay

theorem pySplitSepAux_fuel (nd : List Char) (hnd : nd ≠ []) :
    ∀ f1 f2 hay, hay.length < f1 → hay.length < f2 →
      pySplitSepAux nd f1 hay = pySplitSepAux nd f2 hay := by
  intro f1
  induction f1 with
  | zero => intro f2 hay h1; omega
  | succ g ih =>
    intro f2 hay h1 h2
    cases f2 with
    | zero => omega
    | succ g2 =>
      simp only [pySplitSepAux]
      cases hfind : findSub hay nd with
      | none => rfl
      | some i =>
        have hbound := findSub_bound nd hay i hfind
        have hndlen : 1 ≤ nd.length := by
          cases nd with
          | nil => exact absurd rfl hnd
          | cons a b => simp
        have hdrop : (hay.drop (i + nd.length)).length < hay.length := by
          simp [List.length_drop]
          omega
        show hay.take i :: pySplitSepAux nd g (hay.drop (i + nd.length)) =
          hay.take i :: pySplitSepAux nd g2 (hay.drop (i + nd.length))
        rw [ih g2 (hay.drop (i + nd.length)) (by omega) (by omega)]

theorem pySplitSep_eq (nd hay : List Char) (hnd : nd ≠ []) :
    pySplitSep nd hay =
      match findSub hay nd with
      | none => [hay]
      | some i => hay.take i :: pySplitSep nd (hay.drop (i + nd.length)) := by
  show pySplitSepAux nd (hay.length + 1) hay = _
  simp only [pySplitSepAux]
  cases hfind : findSub hay nd with
  | none => rfl
  | some i =>
    have hbound := findSub_bound nd hay i hfind
    have hndlen : 1 ≤ nd.length := by
      cases nd with
      | nil => exact absurd rfl hnd
      | cons a b => simp
    have hdrop : (hay.drop (i + nd.length)).length < hay.length := by
      simp [List.length_drop]; omega
    show hay.take i :: pySplitSepAux nd hay.length (hay.drop (i + nd.length)) =
      hay.take i :: pySplitSep nd (hay.drop (i + nd.length))
    rw [pySplitSepAux_fuel nd hnd hay.length ((hay.drop (i + nd.length)).length + 1)
      (hay.drop (i + nd.length)) (by omega) (by omega)]
    rfl

/-- Python `str.replace(old, new)` for a non-empty `old`: equivalent to
`new.join(s.split(old))`. -/
def pyReplace (s old new : String) : String :=
  ⟨List.intercalate new.data (pySplitSep old.data s.data)⟩

/-- Python `str.split()` with no argument: split on runs of whitespace,
dropping empty tokens. Fueled for kernel evaluation. -/
def pySplitWsAux : Nat → List Char → List (List Char)
  | 0, _ => []
  | fuel + 1, l =>
    match l with
    | [] => []
    | c :: t =>
      if isPySpace c then pySplitWsAux fuel t
      else (c :: t.takeWhile (fun x => !isPySpace x)) ::
        pySplitWsAux fuel (t.dropWhile (fun x => !isPySpace x))

def pySplitWs (l : List Char) : List (List Char) :=
  pySplitWsAux (l.length + 1) l

/-! Section: config.py -/

/-- Source: `config.BASE_URL`. -/
def BASE_URL : String := "https://www.real.discount"

/-- One entry of `config.CATEGORIES`: category name, keyword list, and the
environment key of the WhatsApp group id. -/
structure Rule where
  name : String
  keywords : List String
  group_id : String
deriving DecidableEq

/-- Source: `config.CATEGORIES`, in declared (insertion) order; Python 3.7+ dicts
iterate in insertion order. -/
def CATEGORIES : List Rule := [
  ⟨"personal_development",
    ["personal development", "soft skills", "leadership", "communication"],
    "PERSONAL_DEV_GROUP"⟩,
  ⟨"cybersecurity",
    ["cybersecurity", "security", "ethical hacking", "penetration testing", "cyber"],
    "CYBERSEC_GROUP"⟩,
  ⟨"crypto",
    ["cryptocurrency", "blockchain", "bitcoin", "crypto", "web3"],
    "CRYPTO_GROUP"⟩,
  ⟨"marketing",
    ["marketing", "digital marketing", "social media marketing"],
    "MARKETING_GROUP"⟩,
  ⟨"backend",
    ["backend", "python", "java", "nodejs", "php", "database"],
    "BACKEND_GROUP"⟩,
  ⟨"web_design",
    ["web design", "html", "css", "ui design"],
    "WEBDESIGN_GROUP"⟩,
  ⟨"design",
    ["graphic design", "photoshop", "illustrator", "figma"],
    "DESIGN_GROUP"⟩,
  ⟨"fullstack",
    ["full stack", "fullstack", "mern", "mean", "web development"],
    "FULLSTACK_GROUP"⟩,
  ⟨"app_development",
    ["application development", "software development", "app development"],
    "APPDEV_GROUP"⟩,
  ⟨"mobile",
    ["mobile development", "android", "ios", "flutter", "react native"],
    "MOBILE_GROUP"⟩,
  ⟨"cloud",
    ["cloud computing", "aws", "azure", "google cloud", "devops"],
    "CLOUD_GROUP"⟩,
  ⟨"quantum",
    ["quantum computing", "quantum", "quantum mechanics"],
    "QUANTUM_GROUP"⟩,
  ⟨"seo",
    ["seo", "search engine optimization", "google analytics"],
    "SEO_GROUP"⟩,
  ⟨"software",
    ["software", "tools", "applications", "productivity"],
    "SOFTWARE_GROUP"⟩]

/-! Section: utils.categorize_course -/

/-- The blob computed by `lower` applied to title, a space, and description at the top of
`categorize_course`, as a character list. -/
def catBlob (title description : String) : List Char :=
  (pyLower (title ++ " " ++ description)).data

/-- Source: the test `any(keyword in title_desc for keyword in data["keywords"])`:
the strong (substring) test of one rule against the blob. -/
def ruleMatchesSub (blob : List Char) (r : Rule) : Bool :=
  r.keywords.any (fun k => containsSub blob k.data)

/-- Source: the test `any(any(word in keyword for word in title_desc.split()) for keyword in
data["keywords"])`: the weak (token-in-keyword) test of one rule. -/
def ruleMatchesTok (blob : List Char) (r : Rule) : Bool :=
  r.keywords.any (fun k => (pySplitWs blob).any (fun w => containsSub k.data w))

/-- The first `for category, data in categories.items():` loop of
`categorize_course`, returning at the first substring match. -/
def firstSubMatch (blob : List Char) : List Rule → Option String
  | [] => none
  | r :: rs => if ruleMatchesSub blob r then some r.name else firstSubMatch blob rs

/-- The second loop of `categorize_course` (partial matches). -/
def firstTokMatch (blob : List Char) : List Rule → Option String
  | [] => none
  | r :: rs => if ruleMatchesTok blob r then some r.name else firstTokMatch blob rs

/-- Source: `utils.categorize_course`. -/
def categorize_course (title description : String) (categories : List Rule) : String :=
  let blob := catBlob title description
  match firstSubMatch blob categories with
  | some c => c
  | none =>
    match firstTokMatch blob categories with
    | some c => c
    | none => "other"

theorem firstSubMatch_spec (blob : List Char) :
    ∀ (cats : List Rule) (c : String), firstSubMatch blob cats = some c →
      ∃ i r, cats.get? i = some r ∧ c = r.name ∧ ruleMatchesSub blob r = true ∧
        ∀ j r', j < i → cats.get? j = some r' → ruleMatchesSub blob r' = false := by
  intro cats
  induction cats with
  | nil => intro c h; simp [firstSubMatch] at h
  | cons r rs ih =>
    intro c h
    by_cases hm : ruleMatchesSub blob r = true
    · refine ⟨0, r, rfl, ?_, hm, ?_⟩
      · simp [firstSubMatch, hm] at h
        exact h.symm
      · intro j r' hj; omega
    · simp only [firstSubMatch, hm, if_neg, Bool.not_eq_true] at h
      have h' : firstSubMatch blob rs = some c := by
        simpa [firstSubMatch, hm] using h
      obtain ⟨i, r0, hget, hname, hmatch, hmin⟩ := ih c h'
      refine ⟨i + 1, r0, by simpa using hget, hname, hmatch, ?_⟩
      intro j r' hj hget'
      cases j with
      | zero =>
        simp at hget'
        subst hget'
        simpa using hm
      | succ j' =>
        exact hmin j' r' (by omega) (by simpa using hget')

theorem firstSubMatch_none (blob : List Char) :
    ∀ (cats : List Rule), (∀ r, r ∈ cats → ruleMatchesSub blob r = false) →
      firstSubMatch blob cats = none := by
  intro cats
  induction cats with
  | nil => intro _; rfl
  | cons r rs ih =>
    intro h
    have hr : ruleMatchesSub blob r = false := h r (by simp)
    simp only [firstSubMatch, hr]
    exact ih (fun r' hr' => h r' (by simp [hr']))

theorem firstSubMatch_isSome (blob : List Char) :
    ∀ (cats : List Rule), (∃ r, r ∈ cats ∧ ruleMatchesSub blob r = true) →
      (firstSubMatch blob cats).isSome = true := by
  intro cats
  induction cats with
  | nil => intro h; obtain ⟨r, hr, _⟩ := h; simp at hr
  | cons r rs ih =>
    intro h
    by_cases hm : ruleMatchesSub blob r = true
    · simp [firstSubMatch, hm]
    · obtain ⟨r0, hr0, hm0⟩ := h
      have : r0 ∈ rs := by
        rcases List.mem_cons.mp hr0 with h1 | h1
        · subst h1; exact absurd hm0 hm
        · exact h1
      simp only [firstSubMatch, hm, if_neg, Bool.not_eq_true]
      simpa [hm] using ih ⟨r0, this, hm0⟩

theorem firstTokMatch_spec (blob : List Char) :
    ∀ (cats : List Rule) (c : String), firstTokMatch blob cats = some c →
      ∃ i r, cats.get? i = some r ∧ c = r.name ∧ ruleMatchesTok blob r = true ∧
        ∀ j r', j < i → cats.get? j = some r' → ruleMatchesTok blob r' = false := by
  intro cats
  induction cats with
  | nil => intro c h; simp [firstTokMatch] at h
  | cons r rs ih =>
    intro c h
    by_cases hm : ruleMatchesTok blob r = true
    · refine ⟨0, r, rfl, ?_, hm, ?_⟩
      · simp [firstTokMatch, hm] at h
        exact h.symm
      · intro j r' hj; omega
    · have h' : firstTokMatch blob rs = some c := by
        simpa [firstTokMatch, hm] using h
      obtain ⟨i, r0, hget, hname, hmatch, hmin⟩ := ih c h'
      refine ⟨i + 1, r0, by simpa using hget, hname, hmatch, ?_⟩
      intro j r' hj hget'
      cases j with
      | zero =>
        simp at hget'
        subst hget'
        simpa using hm
      | succ j' =>
        exact hmin j' r' (by omega) (by simpa using hget')

theorem firstTokMatch_none (blob : List Char) :
    ∀ (cats : List Rule), (∀ r, r ∈ cats → ruleMatchesTok blob r = false) →
      firstTokMatch blob cats = none := by
  intro cats
  induction cats with
  | nil => intro _; rfl
  | cons r rs ih =>
    intro h
    have hr : ruleMatchesTok blob r = false := h r (by simp)
    simp only [firstTokMatch, hr]
    exact ih (fun r' hr' => h r' (by simp [hr']))

theorem firstTokMatch_isSome (blob : List Char) :
    ∀ (cats : List Rule), (∃ r, r ∈ cats ∧ ruleMatchesTok blob r = true) →
      (firstTokMatch blob cats).isSome = true := by
  intro cats
  induction cats with
  | nil => intro h; obtain ⟨r, hr, _⟩ := h; simp at hr
  | cons r rs ih =>
    intro h
    by_cases hm : ruleMatchesTok blob r = true
    · simp [firstTokMatch, hm]
    · obtain ⟨r0, hr0, hm0⟩ := h
      have : r0 ∈ rs := by
        rcases List.mem_cons.mp hr0 with h1 | h1
        · subst h1; exact absurd hm0 hm
        · exact h1
      simpa [firstTokMatch, hm] using ih ⟨r0, this, hm0⟩

/-- Claim C2: for every title and description, when some rule of the fixed
`CATEGORIES` list has a keyword occurring as a literal substring of the
lower-cased blob `title + ' ' + description`, `categorize_course` returns the
name of the first such rule in declared order; every earlier rule has no
keyword occurring in the blob, so ties between two matching rules go to the
earlier-declared rule. -/
theorem categorize_first_substring_match (title description : String)
    (h : ∃ r, r ∈ CATEGORIES ∧ ruleMatchesSub (catBlob title description) r = true) :
    ∃ i r, CATEGORIES.get? i = some r ∧
      categorize_course title description CATEGORIES = r.name ∧
      ruleMatchesSub (catBlob title description) r = true ∧
      ∀ j r', j < i → CATEGORIES.get? j = some r' →
        ruleMatchesSub (catBlob title description) r' = false := by
  have hsome := firstSubMatch_isSome (catBlob title description) CATEGORIES h
  cases hfind : firstSubMatch (catBlob title description) CATEGORIES with
  | none => rw [hfind] at hsome; simp at hsome
  | some c =>
    obtain ⟨i, r, hget, hname, hmatch, hmin⟩ :=
      firstSubMatch_spec (catBlob title description) CATEGORIES c hfind
    refine ⟨i, r, hget, ?_, hmatch, hmin⟩
    simp only [categorize_course, hfind]
    exact hname

/-- Witness for C2 at the specification example: the spec end-to-end example
"Intro to Ethical Hacking" / "penetration testing basics" is categorized by the
first substring-matching rule. -/
theorem categorize_first_substring_match_witness :
    ∃ i r, CATEGORIES.get? i = some r ∧
      categorize_course "Intro to Ethical Hacking" "penetration testing basics" CATEGORIES
        = r.name ∧
      ruleMatchesSub (catBlob "Intro to Ethical Hacking" "penetration testing basics") r
        = true ∧
      ∀ j r', j < i → CATEGORIES.get? j = some r' →
        ruleMatchesSub (catBlob "Intro to Ethical Hacking" "penetration testing basics") r'
          = false :=
  categorize_first_substring_match "Intro to Ethical Hacking" "penetration testing basics"
    (by decide)

/-- Claim C3: when no rule keyword is a substring of the blob,
`categorize_course` performs the weaker pass: it returns the name of the first
rule in declared order having some whitespace-delimited token of the blob as a
substring of one of its keywords, and returns "other" when that pass also
matches nothing. -/
theorem categorize_weak_pass (title description : String)
    (h : ∀ r, r ∈ CATEGORIES → ruleMatchesSub (catBlob title description) r = false) :
    ((∃ r, r ∈ CATEGORIES ∧ ruleMatchesTok (catBlob title description) r = true) →
      ∃ i r, CATEGORIES.get? i = some r ∧
        categorize_course title description CATEGORIES = r.name ∧
        ruleMatchesTok (catBlob title description) r = true ∧
        ∀ j r', j < i → CATEGORIES.get? j = some r' →
          ruleMatchesTok (catBlob title description) r' = false) ∧
    ((∀ r, r ∈ CATEGORIES → ruleMatchesTok (catBlob title description) r = false) →
      categorize_course title description CATEGORIES = "other") := by
  have hnone := firstSubMatch_none (catBlob title description) CATEGORIES h
  constructor
  · intro hex
    have hsome := firstTokMatch_isSome (catBlob title description) CATEGORIES hex
    cases hfind : firstTokMatch (catBlob title description) CATEGORIES with
    | none => rw [hfind] at hsome; simp at hsome
    | some c =>
      obtain ⟨i, r, hget, hname, hmatch, hmin⟩ :=
        firstTokMatch_spec (catBlob title description) CATEGORIES c hfind
      refine ⟨i, r, hget, ?_, hmatch, hmin⟩
      simp only [categorize_course, hnone, hfind]
      exact hname
  · intro hno
    have hnone2 := firstTokMatch_none (catBlob title description) CATEGORIES hno
    simp only [categorize_course, hnone, hnone2]

/-- Witness for C3: a blob matching no keyword and no token yields the
sentinel category "other". -/
theorem categorize_weak_pass_witness :
    categorize_course "qqq" "zzz" CATEGORIES = "other" :=
  (categorize_weak_pass "qqq" "zzz" (by decide)).2 (by decide)

/-! Section: utils.parse_expiry_date

`parse_expiry_date` calls `datetime.strptime` with format "%Y-%m-%d" and, on
success, `strftime` with format "%B %d, %Y". CPython `strptime` matches `%Y` as exactly
four digits and `%m`/`%d` as one or two digits (the documentation states that
the leading zero is optional for `%m` and `%d`), anchored at both ends of the
string, and the `datetime` constructor then validates the calendar date
(`MINYEAR = 1`, month 1-12, day within the month, Gregorian leap years). -/

/-- Decimal value of a digit string. -/
def charsToNat (l : List Char) : Nat :=
  l.foldl (fun a c => a * 10 + (c.toNat - 48)) 0

def isLeapYear (y : Nat) : Bool :=
  (y % 4 == 0 && y % 100 != 0) || y % 400 == 0

def daysInMonth (y m : Nat) : Nat :=
  if m = 2 then (if isLeapYear y then 29 else 28)
  else if m = 4 ∨ m = 6 ∨ m = 9 ∨ m = 11 then 30
  else 31

/-- Model of `datetime.strptime` with format "%Y-%m-%d": four-digit year, one- or two-digit
month and day, nothing else, and a valid calendar date. Returns the numeric
(year, month, day). -/
def pyStrptimeYMD (s : List Char) : Option (Nat × Nat × Nat) :=
  let ys := s.takeWhile Char.isDigit
  if ys.length = 4 then
    match s.dropWhile Char.isDigit with
    | '-' :: r1 =>
      let ms := r1.takeWhile Char.isDigit
      if ms.length = 1 ∨ ms.length = 2 then
        match r1.dropWhile Char.isDigit with
        | '-' :: r2 =>
          let ds := r2.takeWhile Char.isDigit
          if (ds.length = 1 ∨ ds.length = 2) ∧ r2.dropWhile Char.isDigit = [] then
            let y := charsToNat ys
            let m := charsToNat ms
            let d := charsToNat ds
            if 1 ≤ y ∧ 1 ≤ m ∧ m ≤ 12 ∧ 1 ≤ d ∧ d ≤ daysInMonth y m then
              some (y, m, d)
            else none
          else none
        | _ => none
      else none
    | _ => none
  else none

def monthName (m : Nat) : String :=
  match m with
  | 1 => "January"
  | 2 => "February"
  | 3 => "March"
  | 4 => "April"
  | 5 => "May"
  | 6 => "June"
  | 7 => "July"
  | 8 => "August"
  | 9 => "September"
  | 10 => "October"
  | 11 => "November"
  | 12 => "December"
  | _ => ""

/-- Directive "%d": zero-padded two-digit day. -/
def pad2 (n : Nat) : String :=
  if n < 10 then "0" ++ Nat.repr n else Nat.repr n

/-- Model of `date_obj.strftime` with format "%B %d, %Y": full month name, zero-padded day,
unpadded year. -/
def pyStrftimeLong (y m d : Nat) : String :=
  monthName m ++ " " ++ pad2 d ++ ", " ++ Nat.repr y

/-- Source: `utils.parse_expiry_date`. `if not date_str` is also true for the empty
string; `ValueError` from `strptime` returns the raw text unchanged. -/
def parse_expiry_date (date_str : Option String) : Option String :=
  match date_str with
  | none => none
  | some s =>
    if s = "" then none
    else
      match pyStrptimeYMD s.data with
      | some (y, m, d) => some (pyStrftimeLong y m d)
      | none => some s

/-- Modelled from the claim wording of C5: a string of the exact ISO calendar
form `YYYY-MM-DD` (four digits, dash, two digits, dash, two digits). -/
def specISOFormYYYYMMDD (s : String) : Bool :=
  match s.data with
  | [y1, y2, y3, y4, h1, m1, m2, h2, d1, d2] =>
    y1.isDigit && y2.isDigit && y3.isDigit && y4.isDigit && h1 == '-' &&
      m1.isDigit && m2.isDigit && h2 == '-' && d1.isDigit && d2.isDigit
  | _ => false

theorem takeWhile_all_eq {p : Char → Bool} :
    ∀ l : List Char, l.all p = true → l.takeWhile p = l ∧ l.dropWhile p = [] := by
  intro l
  induction l with
  | nil => intro _; exact ⟨rfl, rfl⟩
  | cons c t ih =>
    intro h
    simp only [List.all_cons, Bool.and_eq_true] at h
    have := ih h.2
    simp [List.takeWhile, List.dropWhile, h.1, this.1, this.2]

theorem takeWhile_digits_append (ys rest : List Char) (h : ys.all Char.isDigit = true) :
    (ys ++ '-' :: rest).takeWhile Char.isDigit = ys ∧
      (ys ++ '-' :: rest).dropWhile Char.isDigit = '-' :: rest := by
  constructor
  · rw [List.takeWhile_append_of_pos (by intro a ha; exact (List.all_eq_true.mp h) a ha)]
    simp [List.takeWhile]
  · rw [List.dropWhile_append_of_pos (by intro a ha; exact (List.all_eq_true.mp h) a ha)]
    simp [List.dropWhile]

/-- Counterexample to claim C5 as stated: "2025-3-5" is not of the exact ISO
calendar form `YYYY-MM-DD`, yet the code does not return it unchanged — the
lenient `strptime` accepts the unpadded month and day and reformats it. -/
theorem parse_expiry_counterexample :
    specISOFormYYYYMMDD "2025-3-5" = false ∧
    parse_expiry_date (some "2025-3-5") = some "March 05, 2025" ∧
    parse_expiry_date (some "2025-3-5") ≠ some "2025-3-5" := by
  refine ⟨rfl, by decide, by decide⟩

/-- Claim C5 as amended: absent or empty input yields absent output; a string
accepted by `strptime` with format "%Y-%m-%d" — four-digit year, one- OR two-digit month
and day (zero padding optional), in calendar range — is reformatted to the
long form `Month DD, YYYY` (day zero-padded); every other non-empty string is
returned unchanged. -/
theorem parse_expiry_amended :
    parse_expiry_date none = none ∧
    parse_expiry_date (some "") = none ∧
    (∀ ys ms ds : List Char,
      ys.all Char.isDigit = true → ys.length = 4 →
      ms.all Char.isDigit = true → (ms.length = 1 ∨ ms.length = 2) →
      ds.all Char.isDigit = true → (ds.length = 1 ∨ ds.length = 2) →
      1 ≤ charsToNat ys → 1 ≤ charsToNat ms → charsToNat ms ≤ 12 →
      1 ≤ charsToNat ds → charsToNat ds ≤ daysInMonth (charsToNat ys) (charsToNat ms) →
      parse_expiry_date (some ⟨ys ++ '-' :: (ms ++ '-' :: ds)⟩) =
        some (pyStrftimeLong (charsToNat ys) (charsToNat ms) (charsToNat ds))) ∧
    (∀ s : String, s ≠ "" → pyStrptimeYMD s.data = none →
      parse_expiry_date (some s) = some s) := by
  refine ⟨rfl, rfl, ?_, ?_⟩
  · intro ys ms ds hysd hys4 hmsd hmslen hdsd hdslen hy1 hm1 hm12 hd1 hdm
    have hne : (⟨ys ++ '-' :: (ms ++ '-' :: ds)⟩ : String) ≠ "" := by
      intro h
      have h2 := congrArg String.data h
      simp at h2
    have hdata : (⟨ys ++ '-' :: (ms ++ '-' :: ds)⟩ : String).data
        = ys ++ '-' :: (ms ++ '-' :: ds) := rfl
    have hparse : pyStrptimeYMD (ys ++ '-' :: (ms ++ '-' :: ds))
        = some (charsToNat ys, charsToNat ms, charsToNat ds) := by
      have h1 := takeWhile_digits_append ys (ms ++ '-' :: ds) hysd
      have h2 := takeWhile_digits_append ms ds hmsd
      have h3 := takeWhile_all_eq ds hdsd
      simp only [pyStrptimeYMD, h1.1, h1.2, hys4, if_pos, h2.1, h2.2, h3.1, h3.2]
      rw [if_pos hmslen, if_pos ⟨hdslen, by trivial⟩, if_pos ⟨hy1, hm1, hm12, hd1, hdm⟩]
    simp only [parse_expiry_date, hne, if_neg, hdata, hparse]
    simp [hne]
  · intro s hs hnone
    simp [parse_expiry_date, hs, hnone]

/-- Witness for the amended C5 at the specification example: "2025-03-15"
renders as "March 15, 2025". -/
theorem parse_expiry_amended_witness :
    parse_expiry_date (some ⟨['2', '0', '2', '5'] ++ '-' :: (['0', '3'] ++ '-' :: ['1', '5'])⟩)
      = some (pyStrftimeLong (charsToNat ['2', '0', '2', '5']) (charsToNat ['0', '3'])
          (charsToNat ['1', '5'])) :=
  parse_expiry_amended.2.2.1 ['2', '0', '2', '5'] ['0', '3'] ['1', '5']
    (by decide) (by decide) (by decide) (by decide) (by decide) (by decide)
    (by decide) (by decide) (by decide) (by decide) (by decide)

/-! Section: main.parse_course_element: access-code extraction (lines 205-210) -/

/-- Source: the constant `coupon_param` (the string "couponCode="). -/
def coupon_param : String := "couponCode="

/-- Lines 206-210 of `main.py`: `if udemy_url:` (falsy for `None` and for the
empty string), then `if coupon_param in udemy_url: coupon_code =
udemy_url.split(coupon_param)[1].split("&")[0]`. The guard guarantees the
split has at least two parts, so the `getD []` defaults are never taken. -/
def extractCouponCode (udemy_url : Option String) : Option String :=
  match udemy_url with
  | none => none
  | some u =>
    if u = "" then none
    else if containsSub u.data coupon_param.data then
      let seg := ((pySplitSep coupon_param.data u.data).get? 1).getD []
      some ⟨((pySplitSep ['&'] seg).get? 0).getD []⟩
    else none

/-- The text between the first occurrence of `couponCode=` and the next
occurrence (or the end): the segment `split(coupon_param)[1]` denotes. -/
def couponTail (rest : List Char) : List Char :=
  match findSub rest coupon_param.data with
  | none => rest
  | some j => rest.take j

/-- Modelled from the claim wording of C6: the query string of a URL (text
after the first `?`), split on `&` into `name=value` pairs. -/
def specQueryPairs (q : List Char) : List (List Char × List Char) :=
  (pySplitSep ['&'] q).map (fun p =>
    match findSub p ['='] with
    | none => (p, [])
    | some j => (p.take j, p.drop (j + 1)))

/-- Modelled from the claim wording of C6: the value of the query parameter
named `couponCode`, when the URL has one. -/
def specCouponParamValue (u : String) : Option String :=
  match findSub u.data ['?'] with
  | none => none
  | some i =>
    ((specQueryPairs (u.data.drop (i + 1))).find? (fun pr => pr.1 == "couponCode".data)).map
      (fun pr => ⟨pr.2⟩)

theorem pySplitSep_get1 (nd hay : List Char) (hnd : nd ≠ []) (i : Nat)
    (h : findSub hay nd = some i) :
    (pySplitSep nd hay).get? 1 = (pySplitSep nd (hay.drop (i + nd.length))).get? 0 := by
  rw [pySplitSep_eq nd hay hnd, h]
  rfl

theorem pySplitSep_head (nd hay : List Char) (hnd : nd ≠ []) :
    ((pySplitSep nd hay).get? 0).getD [] =
      match findSub hay nd with
      | none => hay
      | some j => hay.take j := by
  rw [pySplitSep_eq nd hay hnd]
  cases findSub hay nd <;> rfl

theorem ampFirstSeg :
    ∀ seg : List Char,
      (match findSub seg ['&'] with
        | none => seg
        | some j => seg.take j) = seg.takeWhile (fun c => c != '&') := by
  intro seg
  induction seg with
  | nil => rfl
  | cons c t ih =>
    by_cases hc : c = '&'
    · subst hc
      have h : findSub ('&' :: t) ['&'] = some 0 := by
        simp [findSub, List.isPrefixOf]
      rw [h]
      simp [List.takeWhile]
    · have hp : (['&'] : List Char).isPrefixOf (c :: t) = false := by
        simp [List.isPrefixOf]
        exact fun h => absurd h.symm hc
      cases hf : findSub t ['&'] with
      | none =>
        have h : findSub (c :: t) ['&'] = none := by
          simp [findSub, hp, hf]
        rw [h]
        rw [hf] at ih
        simp only [List.takeWhile, show (c != '&') = true by simpa using hc, if_true]
        exact congrArg (c :: ·) ih
      | some j =>
        have h : findSub (c :: t) ['&'] = some (j + 1) := by
          simp [findSub, hp, hf]
        rw [h]
        rw [hf] at ih
        simp only [List.take]
        simp only [List.takeWhile, show (c != '&') = true by simpa using hc, if_true]
        exact congrArg (c :: ·) ih

theorem splitAmp_head (seg : List Char) :
    ((pySplitSep ['&'] seg).get? 0).getD [] = seg.takeWhile (fun c => c != '&') := by
  rw [pySplitSep_head ['&'] seg (by decide)]
  exact ampFirstSeg seg

/-- The demonstration URL: its query string holds the parameter
`precouponCode` with value `Y` before the parameter `couponCode` with
value `X`; the literal substring `couponCode=` first occurs inside the name
`precouponCode`. -/
def cexCouponUrl : String := "https://www.udemy.com/course/x/?precouponCode=Y&couponCode=X"

/-- Counterexample to claim C6 as stated: the URL has a query parameter named
`couponCode` with value "X", but the code extracts "Y" — the characters after
the first occurrence of the substring `couponCode=`, which here lies inside
the name of a different parameter. -/
theorem extract_coupon_counterexample :
    specCouponParamValue cexCouponUrl = some "X" ∧
    extractCouponCode (some cexCouponUrl) = some "Y" ∧
    (some "Y" : Option String) ≠ some "X" := by
  refine ⟨by decide, by decide, by decide⟩

/-- Claim C6 as amended: the access code is present if and only if the string
`couponCode=` occurs as a literal substring anywhere in the URL (not
necessarily as a query-parameter name); its value is the text following the
first occurrence, truncated at the next occurrence of `couponCode=` (an
artifact of `str.split`) and then at the first `&`. -/
theorem extract_coupon_amended :
    extractCouponCode none = none ∧
    (∀ u : String, containsSub u.data coupon_param.data = false →
      extractCouponCode (some u) = none) ∧
    (∀ u : String, ∀ i : Nat, findSub u.data coupon_param.data = some i →
      extractCouponCode (some u) =
        some ⟨(couponTail (u.data.drop (i + coupon_param.data.length))).takeWhile
          (fun c => c != '&')⟩) := by
  refine ⟨rfl, ?_, ?_⟩
  · intro u hc
    by_cases hu : u = ""
    · subst hu; rfl
    · simp [extractCouponCode, hu, hc]
  · intro u i h
    have hcp : coupon_param.data ≠ [] := by decide
    have hu : u ≠ "" := by
      intro he
      subst he
      have : findSub ("" : String).data coupon_param.data = none := by decide
      rw [this] at h
      exact Option.noConfusion h
    have hcont : containsSub u.data coupon_param.data = true := by
      rw [containsSub_eq_isSome_findSub, h]
      rfl
    have e1 : ((pySplitSep coupon_param.data u.data).get? 1).getD []
        = couponTail (u.data.drop (i + coupon_param.data.length)) := by
      rw [pySplitSep_get1 coupon_param.data u.data hcp i h,
        pySplitSep_head coupon_param.data _ hcp]
      rfl
    simp only [extractCouponCode, hu, if_neg, hcont, if_true, e1, splitAmp_head]
    simp [hu]

/-- Witness for the amended C6 at the specification example: a resolved link
containing `?couponCode=FREE2025&utm=x` yields access code "FREE2025". -/
theorem extract_coupon_amended_witness :
    extractCouponCode (some "https://www.udemy.com/course/abc/?couponCode=FREE2025&utm=x")
      = some "FREE2025" := by
  have h := extract_coupon_amended.2.2
    "https://www.udemy.com/course/abc/?couponCode=FREE2025&utm=x" 34 (by decide)
  rw [h]
  decide

/-! Section: The course dictionary and utils.format_whatsapp_message -/

/-- The dictionary returned by `parse_course_element` (lines 220-229 of
`main.py`). Keys that can hold Python `None` are `Option`s. -/
structure Course where
  title : String
  description : String
  url : String
  udemy_url : Option String
  original_price : String
  coupon_code : Option String
  expiry_date : Option String
  category : String
deriving DecidableEq

/-- A parsed `str.format` template: literal runs and named fields. -/
inductive TPart where
  | lit (s : String)
  | field (name : String)
deriving DecidableEq

/-- Source: `config.MESSAGE_TEMPLATE`, with fields named category and courses. -/
def MESSAGE_TEMPLATE : List TPart := [
  TPart.lit "🎓 *New ",
  TPart.field "category",
  TPart.lit " Courses*\n\n",
  TPart.field "courses",
  TPart.lit "\n\n🔍 More deals at: real.discount"]

/-- Source: `config.COURSE_TEMPLATE`, with the per-item fields. It is defined in the
configuration but never passed to `format_whatsapp_message` by `main.py`. -/
def COURSE_TEMPLATE : List TPart := [
  TPart.lit "\n📚 *",
  TPart.field "title",
  TPart.lit "*\n💰 Original Price: ",
  TPart.field "original_price",
  TPart.lit "\n🏷️ Coupon: ",
  TPart.field "coupon_code",
  TPart.lit "\n⏰ Expires: ",
  TPart.field "expiry_date",
  TPart.lit "\n🔗 ",
  TPart.field "url",
  TPart.lit "\n"]

/-- Python `template.format(**args)`: substitute each named field, raising
`KeyError` (modelled as `Except.error` carrying the field name) at the first
field missing from the arguments. -/
def pyFormat (args : List (String × String)) : List TPart → Except String String
  | [] => Except.ok ""
  | TPart.lit s :: rest =>
    match pyFormat args rest with
    | Except.ok r => Except.ok (s ++ r)
    | Except.error n => Except.error n
  | TPart.field n :: rest =>
    match args.lookup n with
    | none => Except.error n
    | some v =>
      match pyFormat args rest with
      | Except.ok r => Except.ok (v ++ r)
      | Except.error msg => Except.error msg

/-- Python `str(value)` for the optional dictionary values: a key present with
value `None` renders as "None" (the `dict.get` defaults "N/A" in
`format_whatsapp_message` are unreachable because `parse_course_element`
always stores the keys). -/
def optStr (o : Option String) : String := o.getD "None"

/-- The keyword arguments of the per-course `template.format(...)` call in
`format_whatsapp_message`. -/
def courseArgs (c : Course) : List (String × String) := [
  ("title", c.title),
  ("original_price", c.original_price),
  ("coupon_code", optStr c.coupon_code),
  ("expiry_date", optStr c.expiry_date),
  ("url", c.url)]

/-- The `for course in courses:` loop of `format_whatsapp_message`: format
each course with the given template, collecting the texts (or the first
`KeyError`). -/
def formatEach (t : List TPart) : List Course → Except String (List String)
  | [] => Except.ok []
  | c :: rest =>
    match pyFormat (courseArgs c) t with
    | Except.error n => Except.error n
    | Except.ok s =>
      match formatEach t rest with
      | Except.error n => Except.error n
      | Except.ok r => Except.ok (s :: r)

/-- Python `str.title()` (ASCII): uppercase a letter after a non-letter,
lowercase a letter after a letter. -/
def pyTitleAux : Bool → List Char → List Char
  | _, [] => []
  | prevAlpha, c :: t =>
    (if c.isAlpha then (if prevAlpha then Char.toLower c else Char.toUpper c) else c) ::
      pyTitleAux c.isAlpha t

def pyTitle (s : String) : String := ⟨pyTitleAux false s.data⟩

/-- Source: `utils.format_whatsapp_message`. Note that the single `template` argument
is used BOTH for the per-course bodies and for the outer frame; `main.py`
passes `MESSAGE_TEMPLATE` for it. -/
def format_whatsapp_message (courses : List Course) (category : String)
    (template : List TPart) : Except String String :=
  match formatEach template courses with
  | Except.error n => Except.error n
  | Except.ok formatted =>
    pyFormat [("category", pyTitle (pyReplace category "_" " ")),
      ("courses", String.intercalate "\n" (formatted.take 10))] template

/-- Claim C4 evaluated on the code: for EVERY non-empty course list, the
message composer raises `KeyError` on "category" instead of returning rendered
text — the per-course `template.format(title=..., ...)` call receives the
outer `MESSAGE_TEMPLATE`, whose first field (named category) is not among the
per-course arguments. The two-level rendering the claim (and
`COURSE_TEMPLATE`) describe is never reached. -/
theorem format_message_keyerror (courses : List Course) (category : String)
    (h : courses ≠ []) :
    format_whatsapp_message courses category MESSAGE_TEMPLATE
      = Except.error "category" := by
  cases courses with
  | nil => exact absurd rfl h
  | cons c rest => rfl

/-- Sample resolved course used by concrete evaluations. -/
def sampleCourse : Course :=
  ⟨"Sample Course", "a sample description",
    "https://www.udemy.com/course/s/?couponCode=ABC",
    some "https://www.udemy.com/course/s/?couponCode=ABC",
    "$19.99", some "ABC", none, "other"⟩

/-- Witness for C4: the failure at a concrete one-course batch. -/
theorem format_message_keyerror_witness :
    format_whatsapp_message [sampleCourse] "cybersecurity" MESSAGE_TEMPLATE
      = Except.error "category" :=
  format_message_keyerror [sampleCourse] "cybersecurity" (by simp)

/-! Section: The dedupe cache and main.scrape_courses (lines 118-132)

The cache is a Python dict mapping url → ISO timestamp, loaded by
`utils.load_cache` and written in full by `utils.save_cache` (a JSON document
round-trips a string-to-string dict unchanged, so persistence is the identity
on the mapping). A scrape pass iterates the parsed course elements in page
order; `parse_course_element` may return `None` (skipped); a course whose url
is not a cache key is appended to the output and recorded immediately. -/

/-- Python `url in cache` on a dict modelled as an association list. -/
def dictMem (k : String) (d : List (String × String)) : Bool :=
  d.any (fun p => p.1 == k)

/-- Python `cache[url] = value`: update in place when present (dicts keep the
key position), append otherwise. -/
def dictSet (d : List (String × String)) (k v : String) : List (String × String) :=
  if dictMem k d then d.map (fun p => if p.1 = k then (k, v) else p)
  else d ++ [(k, v)]

/-- The `for element in course_elements:` loop of `scrape_courses`: `items`
are the per-element parse results in page order (`none` when the element has
no anchor/heading or `parse_course_element` returned `None`); `ts` stands for
`datetime.now().isoformat()`. Returns the new-course list and the final cache,
which `save_cache` then persists in full. -/
def scrape_pass (ts : String) :
    List (String × String) → List (Option Course) → List Course × List (String × String)
  | cache, [] => ([], cache)
  | cache, none :: rest => scrape_pass ts cache rest
  | cache, some c :: rest =>
    if dictMem c.url cache then scrape_pass ts cache rest
    else
      let out := scrape_pass ts (dictSet cache c.url ts) rest
      (c :: out.1, out.2)

/-- Consecutive runs: each run loads the cache persisted by the previous one
(persistence is the identity on the mapping) and performs one scrape pass. -/
def runsFrom (ts : String) :
    List (String × String) → List (List (Option Course)) → List (String × String)
  | cache, [] => cache
  | cache, page :: pages => runsFrom ts (scrape_pass ts cache page).2 pages

theorem dictMem_dictSet (u k v : String) (d : List (String × String)) :
    dictMem u (dictSet d k v) = (dictMem u d || u == k) := by
  by_cases hk : dictMem k d = true
  · unfold dictSet
    rw [if_pos hk]
    have hmap : dictMem u (d.map (fun p => if p.1 = k then (k, v) else p)) = dictMem u d := by
      simp only [dictMem, List.any_map]
      congr 1
      funext p
      by_cases hp : p.1 = k
      · simp [Function.comp, hp]
      · simp [Function.comp, hp]
    by_cases huk : u = k
    · subst huk
      simp [hmap, hk]
    · simp [hmap, (by simpa using huk : (u == k) = false)]
  · unfold dictSet
    rw [if_neg hk]
    by_cases huk : u = k
    · subst huk
      simp [dictMem, List.any_append]
    · simp [dictMem, List.any_append,
        (by simpa using huk : (u == k) = false),
        (by simpa using Ne.symm huk : (k == u) = false)]

theorem dictMem_dictSet_self (k v : String) (d : List (String × String)) :
    dictMem k (dictSet d k v) = true := by
  simp [dictMem_dictSet]

theorem dictMem_dictSet_of_mem (u k v : String) (d : List (String × String))
    (h : dictMem u d = true) : dictMem u (dictSet d k v) = true := by
  simp [dictMem_dictSet, h]

theorem scrape_pass_cache_mono (ts : String) :
    ∀ (items : List (Option Course)) (cache : List (String × String)) (u : String),
      dictMem u cache = true → dictMem u (scrape_pass ts cache items).2 = true := by
  intro items
  induction items with
  | nil => intro cache u h; exact h
  | cons o rest ih =>
    intro cache u h
    cases o with
    | none => exact ih cache u h
    | some c =>
      by_cases hc : dictMem c.url cache
      · simp only [scrape_pass, hc, if_true]
        exact ih cache u h
      · simp only [scrape_pass, hc, if_false]
        exact ih (dictSet cache c.url ts) u (dictMem_dictSet_of_mem u c.url ts cache h)

/-- Claim C1: no operation removes a cache key — recording a single url
preserves every present key, a whole scrape pass preserves every present key,
and across any sequence of persisted runs the key set only grows (a url
present in the store after run N is present after every later run). -/
theorem dedupe_monotonic :
    (∀ (d : List (String × String)) (u k v : String),
      dictMem u d = true → dictMem u (dictSet d k v) = true) ∧
    (∀ (ts : String) (cache : List (String × String)) (items : List (Option Course))
      (u : String),
      dictMem u cache = true → dictMem u (scrape_pass ts cache items).2 = true) ∧
    (∀ (ts : String) (cache : List (String × String))
      (pages : List (List (Option Course))) (u : String),
      dictMem u cache = true → dictMem u (runsFrom ts cache pages) = true) := by
  refine ⟨fun d u k v h => dictMem_dictSet_of_mem u k v d h,
    fun ts cache items u h => scrape_pass_cache_mono ts items cache u h, ?_⟩
  intro ts cache pages
  induction pages generalizing cache with
  | nil => intro u h; exact h
  | cons page rest ih =>
    intro u h
    exact ih (scrape_pass ts cache page).2 u (scrape_pass_cache_mono ts page cache u h)

/-- Witness for C1: a concrete url stays in the store across two further
runs. -/
theorem dedupe_monotonic_witness :
    dictMem "https://www.udemy.com/course/s/?couponCode=ABC"
      (runsFrom "2025-01-02T00:00:00"
        [("https://www.udemy.com/course/s/?couponCode=ABC", "2025-01-01T00:00:00")]
        [[some sampleCourse, none], []]) = true :=
  dedupe_monotonic.2.2 "2025-01-02T00:00:00"
    [("https://www.udemy.com/course/s/?couponCode=ABC", "2025-01-01T00:00:00")]
    [[some sampleCourse, none], []]
    "https://www.udemy.com/course/s/?couponCode=ABC" (by decide)

theorem scrape_pass_mem_after (ts : String) :
    ∀ (items : List (Option Course)) (cache : List (String × String)) (c : Course),
      some c ∈ items → dictMem c.url (scrape_pass ts cache items).2 = true := by
  intro items
  induction items with
  | nil => intro cache c h; simp at h
  | cons o rest ih =>
    intro cache c h
    rcases List.mem_cons.mp h with h1 | h1
    · subst h1
      by_cases hc : dictMem c.url cache
      · simp only [scrape_pass, hc, if_true]
        exact scrape_pass_cache_mono ts rest cache c.url hc
      · simp only [scrape_pass, hc, if_false]
        exact scrape_pass_cache_mono ts rest (dictSet cache c.url ts) c.url
          (dictMem_dictSet_self c.url ts cache)
    · cases o with
      | none => exact ih cache c h1
      | some a =>
        by_cases ha : dictMem a.url cache
        · simp only [scrape_pass, ha, if_true]
          exact ih cache c h1
        · simp only [scrape_pass, ha, if_false]
          exact ih (dictSet cache a.url ts) c h1

theorem scrape_pass_nil_of_all_mem (ts : String) :
    ∀ (items : List (Option Course)) (cache : List (String × String)),
      (∀ c : Course, some c ∈ items → dictMem c.url cache = true) →
      (scrape_pass ts cache items).1 = [] := by
  intro items
  induction items with
  | nil => intro cache _; rfl
  | cons o rest ih =>
    intro cache h
    cases o with
    | none =>
      exact ih cache (fun c hc => h c (by simp [hc]))
    | some a =>
      have ha : dictMem a.url cache = true := h a (by simp)
      simp only [scrape_pass, ha, if_true]
      exact ih cache (fun c hc => h c (by simp [hc]))

/-- Claim C8: a second scrape pass over the identical parsed page, starting
from the cache state the first pass saved, finds no new courses. -/
theorem scrape_idempotent (ts1 ts2 : String) (cache : List (String × String))
    (items : List (Option Course)) :
    (scrape_pass ts2 (scrape_pass ts1 cache items).2 items).1 = [] :=
  scrape_pass_nil_of_all_mem ts2 items (scrape_pass ts1 cache items).2
    (fun c hc => scrape_pass_mem_after ts1 items cache c hc)

theorem scrape_pass_out_characterization (ts : String) :
    ∀ (items : List (Option Course)) (cache : List (String × String)) (c : Course),
      c ∈ (scrape_pass ts cache items).1 →
      dictMem c.url cache = false ∧
        (items.filterMap id).find? (fun x => x.url == c.url) = some c := by
  intro items
  induction items with
  | nil => intro cache c h; simp [scrape_pass] at h
  | cons o rest ih =>
    intro cache c h
    cases o with
    | none =>
      have := ih cache c (by simpa [scrape_pass] using h)
      simpa using this
    | some a =>
      by_cases ha : dictMem a.url cache
      · simp only [scrape_pass, ha, if_true] at h
        obtain ⟨hmem, hfind⟩ := ih cache c h
        refine ⟨hmem, ?_⟩
        have hne : (a.url == c.url) = false := by
          by_contra hcontra
          have : a.url = c.url := by
            cases hb : (a.url == c.url)
            · exact absurd hb hcontra
            · exact eq_of_beq hb
          rw [this] at ha
          rw [ha] at hmem
          exact Bool.noConfusion hmem
        simpa [List.find?, hne] using hfind
      · simp only [scrape_pass, ha, if_false] at h
        rcases List.mem_cons.mp h with h1 | h1
        · subst h1
          refine ⟨by simpa using ha, ?_⟩
          simp [List.find?]
        · obtain ⟨hmem, hfind⟩ := ih (dictSet cache a.url ts) c h1
          rw [dictMem_dictSet] at hmem
          have hmem0 : dictMem c.url cache = false := by
            cases hb : dictMem c.url cache
            · rfl
            · rw [hb] at hmem; simp at hmem
          have hne : (c.url == a.url) = false := by
            cases hb : (c.url == a.url)
            · rfl
            · rw [hb] at hmem; simp at hmem
          refine ⟨hmem0, ?_⟩
          have hne' : (a.url == c.url) = false := by
            cases hb : (a.url == c.url)
            · rfl
            · have : a.url = c.url := eq_of_beq hb
              rw [this.symm] at hne
              simp at hne
          simpa [List.find?, hne'] using hfind

theorem scrape_pass_pairwise (ts : String) :
    ∀ (items : List (Option Course)) (cache : List (String × String)),
      List.Pairwise (fun a b => a.url ≠ b.url) (scrape_pass ts cache items).1 := by
  intro items
  induction items with
  | nil => intro cache; simp [scrape_pass]
  | cons o rest ih =>
    intro cache
    cases o with
    | none => simpa [scrape_pass] using ih cache
    | some a =>
      by_cases ha : dictMem a.url cache
      · simpa [scrape_pass, ha] using ih cache
      · simp only [scrape_pass, ha, if_false]
        refine List.Pairwise.cons ?_ (ih (dictSet cache a.url ts))
        intro b hb
        obtain ⟨hmem, _⟩ := scrape_pass_out_characterization ts rest
          (dictSet cache a.url ts) b hb
        rw [dictMem_dictSet] at hmem
        intro he
        rw [he] at hmem
        simp [dictMem_dictSet_self] at hmem

theorem scrape_pass_exists (ts : String) :
    ∀ (items : List (Option Course)) (cache : List (String × String)) (c : Course),
      some c ∈ items → dictMem c.url cache = false →
      ∃ d, d ∈ (scrape_pass ts cache items).1 ∧ d.url = c.url := by
  intro items
  induction items with
  | nil => intro cache c h; simp at h
  | cons o rest ih =>
    intro cache c h hmem
    rcases List.mem_cons.mp h with h1 | h1
    · subst h1
      simp only [scrape_pass, hmem, if_false]
      exact ⟨c, by simp, rfl⟩
    · cases o with
      | none =>
        simpa [scrape_pass] using ih cache c h1 hmem
      | some a =>
        by_cases ha : dictMem a.url cache
        · simp only [scrape_pass, ha, if_true]
          exact ih cache c h1 hmem
        · simp only [scrape_pass, ha, if_false]
          by_cases hua : c.url = a.url
          · exact ⟨a, by simp, hua.symm⟩
          · have hmem2 : dictMem c.url (dictSet cache a.url ts) = false := by
              rw [dictMem_dictSet, hmem]
              simpa using hua
            obtain ⟨d, hd, hdu⟩ := ih (dictSet cache a.url ts) c h1 hmem2
            exact ⟨d, by simp [hd], hdu⟩

/-- Claim C10: within one scrape pass the emitted urls are pairwise distinct;
every emitted course is the FIRST parsed element in page order with its url;
and every parsed course whose url is not already cached is represented in the
output. So two listing elements resolving to the same url produce exactly one
entry, the first in page order. -/
theorem scrape_within_run_dedup (ts : String) (cache : List (String × String))
    (items : List (Option Course)) :
    List.Pairwise (fun a b => a.url ≠ b.url) (scrape_pass ts cache items).1 ∧
    (∀ c, c ∈ (scrape_pass ts cache items).1 →
      (items.filterMap id).find? (fun x => x.url == c.url) = some c) ∧
    (∀ c, some c ∈ items → dictMem c.url cache = false →
      ∃ d, d ∈ (scrape_pass ts cache items).1 ∧ d.url = c.url) :=
  ⟨scrape_pass_pairwise ts items cache,
    fun c hc => (scrape_pass_out_characterization ts items cache c hc).2,
    fun c hc hm => scrape_pass_exists ts items cache c hc hm⟩

/-- A second course record resolving to the same url as `sampleCourse` but
appearing later in page order. -/
def sampleCourseDup : Course :=
  ⟨"Sample Course (duplicate listing)", "same link, second card",
    "https://www.udemy.com/course/s/?couponCode=ABC",
    some "https://www.udemy.com/course/s/?couponCode=ABC",
    "Free", some "ABC", none, "other"⟩

/-- Witness for C10 on a concrete page with two elements resolving to the
same url: the output of the run contains an entry with that url, and by the
first-in-page-order conjunct it is `sampleCourse`, not the duplicate. -/
theorem scrape_within_run_dedup_witness :
    ∃ d, d ∈ (scrape_pass "t" [] [some sampleCourse, some sampleCourseDup]).1 ∧
      d.url = sampleCourseDup.url :=
  (scrape_within_run_dedup "t" [] [some sampleCourse, some sampleCourseDup]).2.2
    sampleCourseDup (by simp) (by decide)

/-! Section: main.parse_course_element: extraction and detail resolution

The Selenium driver is an oracle `get : String → Except PyExn Unit` (page
navigation, which may raise) and `findUdemy : String → Option String` (the
first `udemy.com` link found in the page source rendered for a url; parse
faults fold into `none`). -/

/-- A Python exception, identified by its message text. -/
structure PyExn where
  msg : String
deriving DecidableEq

/-- The marker tested by `if "ERR_NAME_NOT_RESOLVED" in str(e)`. -/
def dnsMarker : String := "ERR_NAME_NOT_RESOLVED"

/-- Source: line 178, `coupon_url.replace` from "real.discount" to "www.real.discount":
EVERY occurrence is replaced. -/
def wwwRewrite (u : String) : String :=
  pyReplace u "real.discount" "www.real.discount"

/-- Lines 168-196 of `main.py`: fetch the coupon page; on an exception whose
text contains the DNS marker, retry once with the rewritten url (note
`coupon_url` itself is reassigned); any other exception, or a failed retry, is
caught by the outer handler with `udemy_url = None`. Returns the udemy url
found (if any), the final value of `coupon_url`, and the list of urls
navigation was attempted on. -/
def resolveUdemy (get : String → Except PyExn Unit) (findUdemy : String → Option String)
    (coupon_url : String) : Option String × String × List String :=
  match get coupon_url with
  | Except.ok _ => (findUdemy coupon_url, coupon_url, [coupon_url])
  | Except.error e =>
    if containsSub e.msg.data dnsMarker.data then
      let url2 := wwwRewrite coupon_url
      match get url2 with
      | Except.ok _ => (findUdemy url2, url2, [coupon_url, url2])
      | Except.error _ => (none, url2, [coupon_url, url2])
    else (none, coupon_url, [coupon_url])

/-- The queries `parse_course_element` makes against one `<li>` element:
text of the first `h3`/`h4`/`h5`, the first anchor (present or not) with its
`href` attribute (present or not), and the texts produced by the description,
price and expiry fallback chains (already `None` when no node matched). -/
structure CourseElement where
  heading : Option String
  anchorHref : Option (Option String)
  descText : Option String
  priceText : Option String
  expiryText : Option String
deriving DecidableEq

/-- Python `s.startswith(pre)`. -/
def pyStartsWith (s pre : String) : Bool :=
  pre.data.isPrefixOf s.data

/-- Lines 152-157 of `main.py`: `coupon_url` is the stripped href attribute of the anchor (default empty),
skip when empty, and prefix the literal string "https://real.discount" when
the value does not start with "http". -/
def extract_coupon_url (href : Option String) : Option String :=
  if pyStrip (href.getD "") = "" then none
  else if pyStartsWith (pyStrip (href.getD "")) "http" then some (pyStrip (href.getD ""))
  else some ("https://real.discount" ++ pyStrip (href.getD ""))

/-- Source: `main.parse_course_element`: `None` when no heading, no anchor, or an
empty href; otherwise the full course dictionary, resolving the detail page
through the oracles. -/
def parse_course_element (get : String → Except PyExn Unit)
    (findUdemy : String → Option String) (cats : List Rule)
    (element : CourseElement) : Option Course :=
  match element.heading with
  | none => none
  | some htext =>
    let title := pyStrip htext
    match element.anchorHref with
    | none => none
    | some href =>
      match extract_coupon_url href with
      | none => none
      | some coupon_url =>
        let description := (element.descText.map pyStrip).getD title
        let res := resolveUdemy get findUdemy coupon_url
        let udemy_url := res.1
        let final_url := res.2.1
        let original_price := (element.priceText.map pyStrip).getD "N/A"
        let category := categorize_course title description cats
        let coupon_code := extractCouponCode udemy_url
        let expiry_date := element.expiryText.bind
          (fun t => parse_expiry_date (some (pyStrip t)))
        some {
          title := title, description := description,
          url := udemy_url.getD final_url, udemy_url := udemy_url,
          original_price := original_price, coupon_code := coupon_code,
          expiry_date := expiry_date, category := category }

theorem parse_course_element_noHeading (get : String → Except PyExn Unit)
    (findUdemy : String → Option String) (cats : List Rule)
    (ea : Option (Option String)) (ed ep ee : Option String) :
    parse_course_element get findUdemy cats ⟨none, ea, ed, ep, ee⟩ = none := rfl

theorem parse_course_element_noAnchor (get : String → Except PyExn Unit)
    (findUdemy : String → Option String) (cats : List Rule)
    (eh : String) (ed ep ee : Option String) :
    parse_course_element get findUdemy cats ⟨some eh, none, ed, ep, ee⟩ = none := rfl

theorem parse_course_element_skip (get : String → Except PyExn Unit)
    (findUdemy : String → Option String) (cats : List Rule)
    (eh : String) (href : Option String) (ed ep ee : Option String)
    (he : extract_coupon_url href = none) :
    parse_course_element get findUdemy cats ⟨some eh, some href, ed, ep, ee⟩ = none := by
  show (match extract_coupon_url href with
    | none => none
    | some coupon_url =>
      some {
        title := pyStrip eh,
        description := (ed.map pyStrip).getD (pyStrip eh),
        url := ((resolveUdemy get findUdemy coupon_url).1).getD
          (resolveUdemy get findUdemy coupon_url).2.1,
        udemy_url := (resolveUdemy get findUdemy coupon_url).1,
        original_price := (ep.map pyStrip).getD "N/A",
        coupon_code := extractCouponCode (resolveUdemy get findUdemy coupon_url).1,
        expiry_date := ee.bind (fun t => parse_expiry_date (some (pyStrip t))),
        category := categorize_course (pyStrip eh) ((ed.map pyStrip).getD (pyStrip eh))
          cats } : Option Course) = none
  rw [he]

theorem parse_course_element_resolved (get : String → Except PyExn Unit)
    (findUdemy : String → Option String) (cats : List Rule)
    (eh : String) (href : Option String) (ed ep ee : Option String) (cu : String)
    (he : extract_coupon_url href = some cu) :
    parse_course_element get findUdemy cats ⟨some eh, some href, ed, ep, ee⟩ =
      some {
        title := pyStrip eh,
        description := (ed.map pyStrip).getD (pyStrip eh),
        url := ((resolveUdemy get findUdemy cu).1).getD
          (resolveUdemy get findUdemy cu).2.1,
        udemy_url := (resolveUdemy get findUdemy cu).1,
        original_price := (ep.map pyStrip).getD "N/A",
        coupon_code := extractCouponCode (resolveUdemy get findUdemy cu).1,
        expiry_date := ee.bind (fun t => parse_expiry_date (some (pyStrip t))),
        category := categorize_course (pyStrip eh) ((ed.map pyStrip).getD (pyStrip eh))
          cats } := by
  show (match extract_coupon_url href with
    | none => none
    | some coupon_url =>
      some {
        title := pyStrip eh,
        description := (ed.map pyStrip).getD (pyStrip eh),
        url := ((resolveUdemy get findUdemy coupon_url).1).getD
          (resolveUdemy get findUdemy coupon_url).2.1,
        udemy_url := (resolveUdemy get findUdemy coupon_url).1,
        original_price := (ep.map pyStrip).getD "N/A",
        coupon_code := extractCouponCode (resolveUdemy get findUdemy coupon_url).1,
        expiry_date := ee.bind (fun t => parse_expiry_date (some (pyStrip t))),
        category := categorize_course (pyStrip eh) ((ed.map pyStrip).getD (pyStrip eh))
          cats } : Option Course) = _
  rw [he]

/-- An oracle on which every navigation raises a DNS-resolution failure. -/
def dnsFailGet : String → Except PyExn Unit :=
  fun _ => Except.error ⟨"net::ERR_NAME_NOT_RESOLVED"⟩

/-- An oracle finding no udemy link on any page. -/
def noUdemy : String → Option String := fun _ => none

/-- A listing element whose detail link is the relative path `/offer/1`. -/
def dnsCexElement : CourseElement :=
  ⟨some "Learn Docker", some (some "/offer/1"), some "container basics", none, none⟩

/-- Counterexample to claim C7 as stated: the detail URL of this candidate is
`https://real.discount/offer/1`, but after the DNS retry also fails, the
canonical url of the candidate is the www-REWRITTEN url, not the detail URL the
claim says it falls back to (`coupon_url` was reassigned before the retry). -/
theorem resolve_fallback_counterexample :
    extract_coupon_url (some "/offer/1") = some "https://real.discount/offer/1" ∧
    (parse_course_element dnsFailGet noUdemy CATEGORIES dnsCexElement).map Course.url
      = some "https://www.real.discount/offer/1" ∧
    (some "https://www.real.discount/offer/1" : Option String)
      ≠ some "https://real.discount/offer/1" := by
  refine ⟨by decide, by decide, by decide⟩

/-- Claim C7 as amended: a fetch failure whose text contains the DNS marker
triggers exactly one retry, on the url with every occurrence of
`real.discount` replaced by `www.real.discount`; if the retry also fails the
candidate degrades with its canonical url equal to that REWRITTEN url (not
the original detail url) and no access code; a non-DNS failure degrades with
the original detail url and no access code, with no retry; and whenever
extraction succeeded the candidate is still returned (the element parse never
fails because of resolution), carrying exactly the degraded resolution
fields. -/
theorem resolve_degradation :
    (∀ (get : String → Except PyExn Unit) (findU : String → Option String)
      (u : String) (e : PyExn), get u = Except.error e →
      containsSub e.msg.data dnsMarker.data = true →
        (resolveUdemy get findU u).2.2 = [u, wwwRewrite u] ∧
        (∀ e2 : PyExn, get (wwwRewrite u) = Except.error e2 →
          resolveUdemy get findU u = (none, wwwRewrite u, [u, wwwRewrite u]))) ∧
    (∀ (get : String → Except PyExn Unit) (findU : String → Option String)
      (u : String) (e : PyExn), get u = Except.error e →
      containsSub e.msg.data dnsMarker.data = false →
        resolveUdemy get findU u = (none, u, [u])) ∧
    (∀ (get : String → Except PyExn Unit) (findU : String → Option String)
      (cats : List Rule) (el : CourseElement) (htext : String)
      (href : Option String) (cu : String),
      el.heading = some htext → el.anchorHref = some href →
      extract_coupon_url href = some cu →
      ∃ c, parse_course_element get findU cats el = some c ∧
        c.udemy_url = (resolveUdemy get findU cu).1 ∧
        c.url = ((resolveUdemy get findU cu).1).getD (resolveUdemy get findU cu).2.1 ∧
        c.coupon_code = extractCouponCode (resolveUdemy get findU cu).1) := by
  refine ⟨?_, ?_, ?_⟩
  · intro get findU u e hget hdns
    constructor
    · unfold resolveUdemy
      rw [hget]
      simp only [hdns, if_true]
      cases hget2 : get (wwwRewrite u) <;> rfl
    · intro e2 hget2
      unfold resolveUdemy
      rw [hget]
      simp only [hdns, if_true]
      rw [hget2]
  · intro get findU u e hget hdns
    unfold resolveUdemy
    rw [hget]
    simp only [hdns]
    rfl
  · intro get findU cats el htext href cu hh ha he
    obtain ⟨eh, ea, ed, ep, ee⟩ := el
    have hh2 : eh = some htext := hh
    have ha2 : ea = some href := ha
    subst hh2
    subst ha2
    exact ⟨_, parse_course_element_resolved get findU cats htext href ed ep ee cu he,
      rfl, rfl, rfl⟩

/-- Witness for the amended C7: with the always-DNS-failing oracle, the
resolution attempts exactly the detail url and its www rewrite, in order. -/
theorem resolve_degradation_witness :
    (resolveUdemy dnsFailGet noUdemy "https://real.discount/offer/1").2.2
      = ["https://real.discount/offer/1", wwwRewrite "https://real.discount/offer/1"] :=
  (resolve_degradation.1 dnsFailGet noUdemy "https://real.discount/offer/1"
    ⟨"net::ERR_NAME_NOT_RESOLVED"⟩ rfl (by decide)).1

/-- Counterexample to claim C9 as stated: the relative href `/go/abc` is
rewritten by prefixing the literal "https://real.discount" (line 157 of
`main.py`), which is NOT the configured canonical origin `BASE_URL`
(`https://www.real.discount`, `config.py` line 4). -/
theorem coupon_url_counterexample :
    extract_coupon_url (some "/go/abc") = some "https://real.discount/go/abc" ∧
    BASE_URL ++ "/go/abc" = "https://www.real.discount/go/abc" ∧
    extract_coupon_url (some "/go/abc") ≠ some (BASE_URL ++ "/go/abc") := by
  refine ⟨by decide, by decide, by decide⟩

/-- Claim C9 as amended: a listing whose first anchor has no href, or whose
href trims to the empty string, is skipped (no candidate); a trimmed href not
starting with the literal "http" is rewritten by prefixing the hardcoded
string "https://real.discount" (the non-www form, differing from the
configured `BASE_URL`); a trimmed href starting with "http" is used
unchanged. -/
theorem coupon_url_rewrite :
    (∀ (get : String → Except PyExn Unit) (findU : String → Option String)
      (cats : List Rule) (el : CourseElement), el.anchorHref = none →
      parse_course_element get findU cats el = none) ∧
    (∀ (get : String → Except PyExn Unit) (findU : String → Option String)
      (cats : List Rule) (el : CourseElement) (href : Option String),
      el.anchorHref = some href → pyStrip (href.getD "") = "" →
      parse_course_element get findU cats el = none) ∧
    (∀ (href : Option String) (u : String), pyStrip (href.getD "") = u → u ≠ "" →
      pyStartsWith u "http" = true → extract_coupon_url href = some u) ∧
    (∀ (href : Option String) (u : String), pyStrip (href.getD "") = u → u ≠ "" →
      pyStartsWith u "http" = false →
      extract_coupon_url href = some ("https://real.discount" ++ u)) := by
  refine ⟨?_, ?_, ?_, ?_⟩
  · intro get findU cats el ha
    obtain ⟨eh, ea, ed, ep, ee⟩ := el
    have ha2 : ea = none := ha
    subst ha2
    cases eh with
    | none => exact parse_course_element_noHeading get findU cats none ed ep ee
    | some htext => exact parse_course_element_noAnchor get findU cats htext ed ep ee
  · intro get findU cats el href ha hs
    obtain ⟨eh, ea, ed, ep, ee⟩ := el
    have ha2 : ea = some href := ha
    subst ha2
    have he : extract_coupon_url href = none := by
      unfold extract_coupon_url
      rw [hs]
      rfl
    cases eh with
    | none => exact parse_course_element_noHeading get findU cats (some href) ed ep ee
    | some htext => exact parse_course_element_skip get findU cats htext href ed ep ee he
  · intro href u hu hne hsw
    unfold extract_coupon_url
    rw [hu, if_neg hne, hsw]
    rfl
  · intro href u hu hne hsw
    unfold extract_coupon_url
    rw [hu, if_neg hne, hsw]
    rfl

/-- Witness for the amended C9 at the specification example href `/go/abc`. -/
theorem coupon_url_rewrite_witness :
    extract_coupon_url (some "/go/abc") = some ("https://real.discount" ++ "/go/abc") :=
  coupon_url_rewrite.2.2.2 (some "/go/abc") "/go/abc" (by decide) (by decide) (by decide)

end CouponScraper
